import Mathlib

/-
  Verification development for the discord_marketcap bot (src/main.go).

  The Go program is shallowly embedded below:
  * `tickerResponse` mirrors the JSON record decoded from the market-data API;
  * `findTicker`, `isInSlice`, `getTicker`, `loadTickers`, `makeEmbed`,
    `sendTickerMessage` and `messageHandler` are direct translations of the
    functions of the same names, with the ambient effects made explicit:
    HTTP calls become values of `HttpResult`, the process-global `tickers`
    slice and `lastMessages` map become a `BotState` threaded through the
    handler, `time.Now()` becomes an explicit `now : Int` (nanoseconds, as
    Go `time.Duration` counts), and `log.Fatalln` (which logs and then
    terminates the process) becomes the `LoadOutcome.fatal` outcome.
  * Go library helpers used by the program (`strings.EqualFold`,
    `strconv.ParseInt`, `strconv.ParseFloat`, `humanize.Comma`, `fmt`
    formatting with `%.2f`) are modelled by `eqFold`, `parseInt64`,
    `parseGoFloat`, `humanizeComma` and `fmt2`.  The models cover the
    decimal forms the provider emits; `eqFold` models the ASCII case fold
    (Go folds the full Unicode simple-fold table), `parseGoFloat` omits
    hexadecimal floats and digit-separating underscores, and `fmt2` rounds
    the parsed decimal value directly rather than through the binary
    float64; no theorem below depends on these peripheral renderings.
-/

/-- Mirrors the Go struct `tickerResponse` (src/main.go:26-38): one record of
the market-data API. All fields are strings, exactly as in the JSON. -/
structure tickerResponse where
  id : String
  name : String
  symbol : String
  rank : String
  priceUSD : String
  priceBTC : String
  marketCap : String
  change1H : String
  change24H : String
  change7D : String
  lastUpdated : String
deriving DecidableEq, Repr

/-- The allow-list of channel identifiers (src/main.go:51). -/
def channels : List String := ["322882023825997845", "229807580367683584"]

/-- One second of Go `time.Duration`, in nanoseconds (`time.Second`). -/
def timeSecond : Int := 1000000000

/-- The cooldown between served responses, `rateLimit = time.Second * 30`
(src/main.go:48). -/
def rateLimit : Int := timeSecond * 30

/-- Model of Go `strings.EqualFold` restricted to ASCII folding: the two
strings are equal after lowercasing each character. -/
def eqFold (a b : String) : Bool :=
  a.data.map Char.toLower == b.data.map Char.toLower

/-- The loop body condition of `findTicker` (src/main.go:278):
`strings.EqualFold(ticker.Name, t) || strings.EqualFold(ticker.Symbol, t)`. -/
def tickerMatches (q : String) (tk : tickerResponse) : Bool :=
  eqFold tk.name q || eqFold tk.symbol q

/-- Mirrors `findTicker` (src/main.go:276-285): scan the snapshot in order and
return the first ticker whose name or symbol matches the query
case-insensitively; the Go `(nullTicker, false)` result is `none`. -/
def findTicker (tickers : List tickerResponse) (t : String) :
    Option tickerResponse :=
  match tickers with
  | [] => none
  | tk :: rest => if tickerMatches t tk then some tk else findTicker rest t

/-- Mirrors `isInSlice` (src/main.go:287-295). -/
def isInSlice (s : String) (slice : List String) : Bool :=
  match slice with
  | [] => false
  | str :: rest => if str = s then true else isInSlice s rest

/-- Demo asset used in concrete instances: name "Bitcoin", symbol "BTC". -/
def bitcoinA : tickerResponse :=
  { id := "bitcoin", name := "Bitcoin", symbol := "BTC", rank := "1",
    priceUSD := "50000", priceBTC := "1.0", marketCap := "12345",
    change1H := "0.5", change24H := "2.5", change7D := "-1.0",
    lastUpdated := "1513293412" }

lemma findTicker_eq_none_iff (q : String) (L : List tickerResponse) :
    findTicker L q = none ↔ ∀ a ∈ L, tickerMatches q a = false := by
  induction L with
  | nil => simp [findTicker]
  | cons hd tl ih =>
    cases h : tickerMatches q hd with
    | true => simp [findTicker, h]
    | false => simp [findTicker, h, ih]

lemma findTicker_eq_some (q : String) (L : List tickerResponse)
    (a : tickerResponse) (h : findTicker L q = some a) :
    tickerMatches q a = true ∧
      ∃ l₁ l₂, L = l₁ ++ a :: l₂ ∧ ∀ b ∈ l₁, tickerMatches q b = false := by
  induction L with
  | nil => simp [findTicker] at h
  | cons hd tl ih =>
    cases hm : tickerMatches q hd with
    | true =>
      simp only [findTicker, hm, if_true] at h
      obtain rfl : hd = a := by injection h
      exact ⟨hm, [], tl, rfl, by simp⟩
    | false =>
      simp only [findTicker, hm, Bool.false_eq_true, if_false] at h
      obtain ⟨hma, l₁, l₂, rfl, hnone⟩ := ih h
      refine ⟨hma, hd :: l₁, l₂, rfl, ?_⟩
      intro b hb
      rcases List.mem_cons.mp hb with rfl | hb
      · exact hm
      · exact hnone b hb

/-- C1: `findTicker` scans the snapshot in order and returns the first asset
whose name or symbol equals the query case-insensitively (exact match); with
no match it fails. In particular an asset named "Bitcoin" with symbol "BTC"
is resolved by "bitcoin", "BTC" and "btc" but not by "bit". -/
theorem findTicker_first_match (q : String) (L : List tickerResponse) :
    (findTicker L q = none ↔ ∀ a ∈ L, tickerMatches q a = false) ∧
    (∀ a, findTicker L q = some a →
      tickerMatches q a = true ∧
        ∃ l₁ l₂, L = l₁ ++ a :: l₂ ∧ ∀ b ∈ l₁, tickerMatches q b = false) ∧
    (findTicker [bitcoinA] "bitcoin" = some bitcoinA ∧
     findTicker [bitcoinA] "BTC" = some bitcoinA ∧
     findTicker [bitcoinA] "btc" = some bitcoinA ∧
     findTicker [bitcoinA] "bit" = none) := by
  refine ⟨findTicker_eq_none_iff q L, fun a h => findTicker_eq_some q L a h, ?_⟩
  refine ⟨by decide, by decide, by decide, by decide⟩

/-- Witness for C1: instantiating the theorem at the one-element snapshot
shows the "btc" lookup matches the head asset. -/
theorem findTicker_first_match_witness :
    tickerMatches "btc" bitcoinA = true := by
  have h := (findTicker_first_match "btc" [bitcoinA]).2.1 bitcoinA
  exact (h (by decide)).1

/-- Numeric value of a digit string; `none` when empty or a non-digit occurs,
as for Go `strconv` digit scanning. -/
def digitsVal (cs : List Char) : Option Nat :=
  match cs with
  | [] => none
  | _ =>
    if cs.all Char.isDigit then
      some (cs.foldl (fun acc c => acc * 10 + (c.toNat - 48)) 0)
    else none

/-- Model of Go `strconv.ParseInt(s, 10, 64)`: optional sign, nonempty digit
run, value within the signed 64-bit range; anything else is an error. -/
def parseInt64 (s : String) : Option Int :=
  let signDigits : Int × List Char :=
    match s.data with
    | '-' :: rest => (-1, rest)
    | '+' :: rest => (1, rest)
    | l => (1, l)
  match digitsVal signDigits.2 with
  | none => none
  | some n =>
    let v : Int := signDigits.1 * (n : Int)
    if -(2 ^ 63) ≤ v ∧ v ≤ 2 ^ 63 - 1 then some v else none

/-- Insert a comma after every third digit of a reversed digit list. -/
def commasRev : List Char → Nat → List Char
  | [], _ => []
  | c :: rest, n =>
    if n = 0 then ',' :: c :: commasRev rest 2
    else c :: commasRev rest (n - 1)

/-- Digit grouping of a natural number, as `humanize.Comma` renders the
absolute value. -/
def commaNat (n : Nat) : String :=
  String.mk ((commasRev (Nat.toDigits 10 n).reverse 3).reverse)

/-- Model of `humanize.Comma` on int64: sign, then groups of three digits
separated by commas. -/
def humanizeComma (v : Int) : String :=
  if v < 0 then "-" ++ commaNat v.natAbs else commaNat v.natAbs

/-- Value category of a Go float64 produced by `strconv.ParseFloat`: a finite
value (kept exact as a rational), an infinity, or NaN. -/
inductive GoFloat where
  | finite (q : Rat)
  | inf (neg : Bool)
  | nan
deriving DecidableEq, Repr

/-- Split a character list at the first occurrence of `sep`. -/
def splitFirst (sep : Char) : List Char → List Char × Option (List Char)
  | [] => ([], none)
  | c :: rest =>
    if c = sep then ([], some rest)
    else
      let p := splitFirst sep rest
      (c :: p.1, p.2)

/-- Digits of the decimal mantissa `intPart [. fracPart]` with their scale:
`some (m, d)` means the mantissa reads `m / 10^d`. Requires at least one
digit overall, and digits only. -/
def mantissaVal (cs : List Char) : Option (Nat × Nat) :=
  let p := splitFirst '.' cs
  match p.2 with
  | none =>
    match digitsVal p.1 with
    | some m => some (m, 0)
    | none => none
  | some frac =>
    let all := p.1 ++ frac
    if all ≠ [] ∧ all.all Char.isDigit then
      match digitsVal all with
      | some m => some (m, frac.length)
      | none => none
    else none

/-- Signed exponent digits after the `e`, per the Go float grammar. -/
def expVal (cs : List Char) : Option Int :=
  match cs with
  | '-' :: rest => (digitsVal rest).map (fun n => -(n : Int))
  | '+' :: rest => (digitsVal rest).map (fun n => (n : Int))
  | l => (digitsVal l).map (fun n => (n : Int))

/-- The float64 overflow threshold `2^1024`, written as a literal so that
evaluating the parser does not unfold a deep power. -/
def f64Overflow : Int := 179769313486231590772930519078902473361797697894230657273430081157732675805500963132708477322407536021120113879871393357658789768814416622492847430639474124377767893424865485276302219601246094119453082952085005768838150682342462881473913110540827237163350510684586298239947245938479716304835356329624224137216

/-- Half the least positive subnormal float64, `2^-1075`, as its
denominator `2^1075`, written as a literal for the same reason. -/
def f64HalfSubnormalDen : Nat := 404804506614621236704990693437834614099113299528284236713802716054860679135990693783920767402874248990374155728633623822779617474771586953734026799881477019843034848553132722728933815484186432682479535356945490137124014966849385397236206711298319112681620113024717539104666829230461005064372655017292012526615415482186989568

/-- Exact rational value `sign * m / 10^d * 10^e`. -/
def decApprox (sign : Int) (m : Nat) (d : Nat) (e : Int) : Rat :=
  let p : Int := e - (d : Int)
  if 0 ≤ p then ((sign * (m : Int) * 10 ^ p.toNat : Int) : Rat)
  else mkRat (sign * (m : Int)) (10 ^ (-p).toNat)

/-- Model of Go `strconv.ParseFloat(s, 64)` on the decimal forms the
provider emits: optional sign; `inf`, `infinity` and `nan` specials
(case-insensitive, `nan` unsigned); otherwise digits with an optional dot
and an optional `e`-exponent. Out-of-range values are errors (`ErrRange`),
here approximated by the float64 overflow bound `2^1024` and half the least
subnormal `2^-1075`. Hexadecimal floats and digit-separating underscores
are not modelled. -/
def parseGoFloat (s : String) : Option GoFloat :=
  let ls := s.data.map Char.toLower
  if ls = "nan".data then some .nan
  else
    let signRest : Bool × List Char :=
      match ls with
      | '-' :: r => (true, r)
      | '+' :: r => (false, r)
      | l => (false, l)
    if signRest.2 = "inf".data ∨ signRest.2 = "infinity".data then
      some (.inf signRest.1)
    else
      let p := splitFirst 'e' signRest.2
      match mantissaVal p.1 with
      | none => none
      | some md =>
        let eo : Option Int :=
          match p.2 with
          | none => some 0
          | some ecs => expVal ecs
        match eo with
        | none => none
        | some e =>
          let sign : Int := if signRest.1 then -1 else 1
          let q := decApprox sign md.1 md.2 e
          let aq := if q < 0 then -q else q
          if ((f64Overflow : Int) : Rat) ≤ aq then none
          else if aq ≠ 0 ∧ aq < mkRat 1 f64HalfSubnormalDen then none
          else some (.finite q)

/-- Two-digit zero-padded rendering of a value below 100. -/
def twoDigits (n : Nat) : String :=
  if n < 10 then "0" ++ toString n else toString n

/-- The value of `q * 100` rounded to the nearest integer, halves up:
`⌊100q + 1/2⌋` computed by floor division on the numerator and
denominator. -/
def ratRound100 (q : Rat) : Int :=
  Int.fdiv (q.num * 200 + (q.den : Int)) ((q.den : Int) * 2)

/-- Model of `fmt.Sprintf("%.2f", f)`: the value rounded to two decimal
places (rounding the exact decimal, rather than through the binary float),
infinities as `+Inf`/`-Inf`, NaN as `NaN`. -/
def fmt2 (f : GoFloat) : String :=
  match f with
  | .nan => "NaN"
  | .inf neg => if neg then "-Inf" else "+Inf"
  | .finite q =>
    let scaled : Int := ratRound100 q
    let a := scaled.natAbs
    (if scaled < 0 then "-" else "") ++
      toString (a / 100) ++ "." ++ twoDigits (a % 100)

/-- One labeled field of the rich-message payload
(`discordgo.MessageEmbedField`). -/
structure EmbedField where
  name : String
  value : String
  isInline : Bool
deriving DecidableEq, Repr

/-- The rich-message payload built by `makeEmbed`
(`discordgo.MessageEmbed`, restricted to the parts the program sets). -/
structure Embed where
  title : String
  url : String
  authorName : String
  authorIconURL : String
  fields : List EmbedField
deriving DecidableEq, Repr

/-- Mirrors `makeEmbed` (src/main.go:199-274): title, link, author, then the
rank/price fields, a "Market Cap" field guarded by
`strconv.ParseInt(t.LastUpdated, 10, 64)` succeeding (the Go code parses the
`LastUpdated` string here), and one field per percent-change string that
parses as a float — each labeled "Percent Change 1 hour" in the source. -/
def makeEmbed (t : tickerResponse) : Embed :=
  { title := "Coin Market Cap"
    url := "https://coinmarketcap.com/currencies/" ++ t.id
    authorName := t.name ++ " (" ++ t.symbol ++ ")"
    authorIconURL :=
      "https://files.coinmarketcap.com/static/img/coins/32x32/" ++ t.id
        ++ ".png"
    fields :=
      [{ name := "Coin Market Cap Rank", value := "#" ++ t.rank,
         isInline := false },
       { name := "Price USD", value := "$" ++ t.priceUSD, isInline := true },
       { name := "Price BTC", value := t.priceBTC ++ " BTC",
         isInline := true }]
      ++ (match parseInt64 t.lastUpdated with
          | some parsedCap =>
            [{ name := "Market Cap", value := "$" ++ humanizeComma parsedCap,
               isInline := false }]
          | none => [])
      ++ (match parseGoFloat t.change1H with
          | some parsed1H =>
            [{ name := "Percent Change 1 hour", value := fmt2 parsed1H ++ "%",
               isInline := true }]
          | none => [])
      ++ (match parseGoFloat t.change24H with
          | some parsed24H =>
            [{ name := "Percent Change 1 hour", value := fmt2 parsed24H ++ "%",
               isInline := true }]
          | none => [])
      ++ (match parseGoFloat t.change7D with
          | some parsed7D =>
            [{ name := "Percent Change 1 hour", value := fmt2 parsed7D ++ "%",
               isInline := true }]
          | none => []) }

/-- Asset whose `market_cap_usd` string parses as a number while its
`last_updated` string does not. -/
def capBugA : tickerResponse :=
  { id := "a", name := "A", symbol := "AAA", rank := "1", priceUSD := "1",
    priceBTC := "1", marketCap := "12345", change1H := "x", change24H := "x",
    change7D := "x", lastUpdated := "garbage" }

/-- Asset whose `market_cap_usd` string does not parse while its
`last_updated` string does. -/
def capBugB : tickerResponse :=
  { id := "b", name := "B", symbol := "BBB", rank := "2", priceUSD := "1",
    priceBTC := "1", marketCap := "notanumber", change1H := "x",
    change24H := "x", change7D := "x", lastUpdated := "1513293412" }

/-- C9 (code bug): the "Market Cap" field of `makeEmbed` is guarded by and
derived from the `lastUpdated` string, not the `marketCap` string. With a
parsable market cap but unparsable timestamp the field is absent; with an
unparsable market cap but parsable timestamp the field is present and shows
the formatted timestamp. -/
theorem marketCap_field_ignores_marketCap :
    parseInt64 capBugA.marketCap = some 12345 ∧
    (makeEmbed capBugA).fields.map EmbedField.name =
      ["Coin Market Cap Rank", "Price USD", "Price BTC"] ∧
    parseInt64 capBugB.marketCap = none ∧
    EmbedField.mk "Market Cap" "$1,513,293,412" false
      ∈ (makeEmbed capBugB).fields := by decide

/-- C10: the field labels of the payload, in order: the three unconditional
fields, "Market Cap" exactly when the (buggy) timestamp guard parses, and
one field per percent-change string that parses as a float — every one of
the three carrying the same label "Percent Change 1 hour"; the 24-hour and
7-day fields get no label of their own. -/
theorem percent_change_labels (t : tickerResponse) :
    (makeEmbed t).fields.map EmbedField.name =
      ["Coin Market Cap Rank", "Price USD", "Price BTC"]
      ++ (match parseInt64 t.lastUpdated with
          | some _ => ["Market Cap"]
          | none => [])
      ++ (match parseGoFloat t.change1H with
          | some _ => ["Percent Change 1 hour"]
          | none => [])
      ++ (match parseGoFloat t.change24H with
          | some _ => ["Percent Change 1 hour"]
          | none => [])
      ++ (match parseGoFloat t.change7D with
          | some _ => ["Percent Change 1 hour"]
          | none => []) := by
  unfold makeEmbed
  cases parseInt64 t.lastUpdated <;>
    cases parseGoFloat t.change1H <;>
    cases parseGoFloat t.change24H <;>
    cases parseGoFloat t.change7D <;> simp

/-- What an `http.Get` against a ticker endpoint yields, as seen by the
program: the status code and the result of decoding the body as a JSON
array of `tickerResponse` (`none` models a malformed payload). -/
structure HttpResponse where
  statusCode : Nat
  decoded : Option (List tickerResponse)
deriving DecidableEq

/-- Outcome of the `http.Get` call itself: `err` is a transport error
(non-nil `err` from `http.Get`), `ok` a delivered response. -/
inductive HttpResult where
  | err
  | ok (r : HttpResponse)
deriving DecidableEq

/-- The error classes of the two fetch paths (spec taxonomy; the Go code
returns the transport error, `errors.New("Bad status code")` and
`errors.New("Bad response")` respectively). -/
inductive FetchError where
  | transport
  | badStatus (code : Nat)
  | decodeFailure
  | badCardinality (n : Nat)
deriving DecidableEq

/-- Mirrors `getTicker` (src/main.go:127-154) with the HTTP call made
explicit: transport error, then a `StatusOK` (200) check, then JSON
decoding, then the `len(t) != 1` cardinality check; on success the single
record `t[0]` is returned. -/
def getTicker (res : HttpResult) : Except FetchError tickerResponse :=
  match res with
  | .err => .error .transport
  | .ok r =>
    if r.statusCode ≠ 200 then .error (.badStatus r.statusCode)
    else
      match r.decoded with
      | none => .error .decodeFailure
      | some ts =>
        match ts with
        | [tk] => .ok tk
        | _ => .error (.badCardinality ts.length)

/-- The snapshot-install step of `loadTickers` (src/main.go:121-124):
`if len(t) > 0 { tickers = t }` — the fetched list replaces the snapshot
exactly when it is non-empty. -/
def replaceTickers (t old : List tickerResponse) : List tickerResponse :=
  if 0 < t.length then t else old

/-- How a `loadTickers` run ends: `fatal` models `log.Fatalln`/`log.Fatalf`
(the error is logged and the process exits), `loaded n` the
"Loaded n tickers" log line, `nothingToUpdate` the silent empty-list
no-op. -/
inductive LoadOutcome where
  | fatal (e : FetchError)
  | loaded (n : Nat)
  | nothingToUpdate
deriving DecidableEq

/-- Mirrors `loadTickers` (src/main.go:103-125): on a transport error,
non-200 status or decode failure the process is terminated via `log.Fatal*`
(the snapshot global is never touched on those paths); a decoded non-empty
list replaces the snapshot, an empty one is a no-op. -/
def loadTickers (res : HttpResult) (tickers : List tickerResponse) :
    List tickerResponse × LoadOutcome :=
  match res with
  | .err => (tickers, .fatal .transport)
  | .ok r =>
    if r.statusCode ≠ 200 then (tickers, .fatal (.badStatus r.statusCode))
    else
      match r.decoded with
      | none => (tickers, .fatal .decodeFailure)
      | some t =>
        if 0 < t.length then (t, .loaded t.length)
        else (tickers, .nothingToUpdate)

/-- C2: the snapshot-install step installs the fetched list iff it is
non-empty; an empty refresh is a no-op, so `replace A` then `replace ∅`
leaves the snapshot at `replace A`, and a successful decoded refresh in
`loadTickers` installs exactly `replaceTickers`. -/
theorem replaceTickers_iff_nonempty (A old : List tickerResponse) :
    (A ≠ [] → replaceTickers A old = A) ∧
    replaceTickers [] old = old ∧
    replaceTickers [] (replaceTickers A old) = replaceTickers A old ∧
    (loadTickers (HttpResult.ok ⟨200, some A⟩) old).1 = replaceTickers A old := by
  refine ⟨?_, rfl, rfl, ?_⟩
  · intro h
    have : 0 < A.length := List.length_pos.mpr h
    simp [replaceTickers, this]
  · by_cases h : 0 < A.length <;> simp [loadTickers, replaceTickers, h]

/-- Witness for C2: a one-element refresh installs the new list, and a
following empty refresh leaves it in place. -/
theorem replaceTickers_iff_nonempty_witness :
    replaceTickers [bitcoinA] [] = [bitcoinA] ∧
    replaceTickers [] (replaceTickers [bitcoinA] []) =
      replaceTickers [bitcoinA] [] := by
  have h := replaceTickers_iff_nonempty [bitcoinA] []
  exact ⟨h.1 (by decide), h.2.2.1⟩

/-- C6: the single-asset fetch errors exactly on a transport error, a
non-200 status, a decode failure, or a decoded record count other than one;
when it succeeds it returns the single record of the response. -/
theorem getTicker_error_iff (res : HttpResult) :
    ((∃ x, getTicker res = .ok x) ↔
      ∃ r x, res = .ok r ∧ r.statusCode = 200 ∧ r.decoded = some [x]) ∧
    ((∃ e, getTicker res = .error e) ↔
      (res = .err ∨
        ∃ r, res = .ok r ∧
          (r.statusCode ≠ 200 ∨ r.decoded = none ∨
            ∃ l, r.decoded = some l ∧ l.length ≠ 1))) ∧
    (∀ r x, res = .ok r → r.statusCode = 200 → r.decoded = some [x] →
      getTicker res = .ok x) := by
  rcases res with _ | ⟨code, dec⟩
  · refine ⟨by simp [getTicker], by simp [getTicker], by intro r x h; cases h⟩
  · by_cases hc : code = 200
    · subst hc
      rcases dec with _ | ts
      · refine ⟨by simp [getTicker], by simp [getTicker], ?_⟩
        intro r x h; injection h with h; rw [← h]; intro _ hd; cases hd
      · match ts with
        | [] =>
          refine ⟨by simp [getTicker], by simp [getTicker], ?_⟩
          intro r x h; injection h with h; rw [← h]
          intro _ hd; injection hd with hd; cases hd
        | [tk] =>
          refine ⟨?_, by simp [getTicker], ?_⟩
          · constructor
            · intro ⟨x, hx⟩
              simp only [getTicker, ne_eq, not_true_eq_false,
                reduceIte] at hx
              exact ⟨⟨200, some [tk]⟩, tk, rfl, rfl, rfl⟩
            · intro _; exact ⟨tk, by simp [getTicker]⟩
          · intro r x h hs hd
            injection h with h; rw [← h] at hd
            simp only at hd
            injection hd with hd
            injection hd with h1 _
            simp [getTicker, h1]
        | a :: b :: rest =>
          refine ⟨by simp [getTicker], ?_, ?_⟩
          · constructor
            · intro _
              refine Or.inr ⟨⟨200, some (a :: b :: rest)⟩, rfl, Or.inr
                (Or.inr ⟨a :: b :: rest, rfl, by simp⟩)⟩
            · intro _; exact ⟨.badCardinality (a :: b :: rest).length,
                by simp [getTicker]⟩
          · intro r x h; injection h with h; rw [← h]
            intro _ hd; injection hd with hd
            injection hd with h1 h2
            simp at h2
    · refine ⟨?_, ?_, ?_⟩
      · constructor
        · intro ⟨x, hx⟩; simp [getTicker, hc] at hx
        · intro ⟨r, x, hr, hs, _⟩
          injection hr with hr; rw [← hr] at hs; simp at hs
          exact absurd hs hc
      · constructor
        · intro _; exact Or.inr ⟨⟨code, dec⟩, rfl, Or.inl (by simpa using hc)⟩
        · intro _; exact ⟨.badStatus code, by simp [getTicker, hc]⟩
      · intro r x hr hs
        injection hr with hr; rw [← hr] at hs; simp at hs
        exact absurd hs hc

/-- Witness for C6: a delivered 200 response decoding to exactly one record
yields that record. -/
theorem getTicker_error_iff_witness :
    getTicker (HttpResult.ok ⟨200, some [bitcoinA]⟩) = .ok bitcoinA := by
  exact (getTicker_error_iff (HttpResult.ok ⟨200, some [bitcoinA]⟩)).2.2
    ⟨200, some [bitcoinA]⟩ bitcoinA rfl rfl rfl

/-- C8 counterexample: a transport error on a (periodic) refresh makes
`loadTickers` end in the `fatal` outcome — `log.Fatalln` logs and then the
process exits, so the message handler stops handling events, contradicting
"the process keeps handling inbound events". The snapshot itself is left
unchanged. -/
theorem loadTickers_transport_fatal :
    loadTickers HttpResult.err [bitcoinA] =
      ([bitcoinA], LoadOutcome.fatal FetchError.transport) := by decide

/-- C8 amended: on a transport error, a non-success status or a decode
failure, `loadTickers` leaves the snapshot unchanged and ends in a `fatal`
outcome: the error is logged and the process terminates (so the Dispatcher
path handles no further events), rather than surviving the tick. -/
theorem loadTickers_failure_fatal (res : HttpResult)
    (old : List tickerResponse)
    (h : res = .err ∨
      ∃ r, res = .ok r ∧ (r.statusCode ≠ 200 ∨ r.decoded = none)) :
    (loadTickers res old).1 = old ∧
      ∃ e, (loadTickers res old).2 = .fatal e := by
  rcases h with rfl | ⟨r, rfl, hr⟩
  · exact ⟨rfl, .transport, rfl⟩
  · rcases hr with hs | hd
    · refine ⟨?_, .badStatus r.statusCode, ?_⟩ <;> simp [loadTickers, hs]
    · by_cases hs : r.statusCode = 200
      · refine ⟨?_, .decodeFailure, ?_⟩ <;> simp [loadTickers, hs, hd]
      · refine ⟨?_, .badStatus r.statusCode, ?_⟩ <;> simp [loadTickers, hs]

/-- Witness for C8 (amended): a non-200 list response leaves the snapshot
in place and is fatal. -/
theorem loadTickers_failure_fatal_witness :
    (loadTickers (HttpResult.ok ⟨500, some []⟩) [bitcoinA]).1 = [bitcoinA] ∧
    ∃ e, (loadTickers (HttpResult.ok ⟨500, some []⟩) [bitcoinA]).2 =
      LoadOutcome.fatal e := by
  exact loadTickers_failure_fatal (HttpResult.ok ⟨500, some []⟩) [bitcoinA]
    (Or.inr ⟨⟨500, some []⟩, rfl, Or.inl (by decide)⟩)

/-- The process-global mutable state read and written by the handler: the
`tickers` snapshot slice and the `lastMessages` channel → last-served-time
map (a total map, absent channels at the Go zero `time.Time`, here `0`). -/
structure BotState where
  tickers : List tickerResponse
  lastMessages : String → Int

/-- One inbound chat event, as the handler sees it: origin channel and raw
message text. -/
structure MessageEvent where
  channelID : String
  content : String

/-- Mirrors `init` (src/main.go:54-58): at process start every allow-listed
channel is stamped with the start time; any other key holds the zero
time. -/
def startLastMessages (start : Int) : String → Int :=
  fun c => if isInSlice c channels then start else 0

/-- The cooldown test of the handler (src/main.go:171):
`time.Since(lastMessages[ch]) < rateLimit` blocks the event; this is the
gate's allow side, `now - last ≥ rateLimit`. It reads the map and writes
nothing. -/
def cooldownAllows (last now : Int) : Bool := !(decide (now - last < rateLimit))

/-- The map write `lastMessages[m.ChannelID] = time.Now()`
(src/main.go:196). -/
def recordTime (m : String → Int) (chan : String) (now : Int) :
    String → Int :=
  fun c => if c = chan then now else m c

/-- Split a character list at every occurrence of the separator, keeping
empty runs, as Go `strings.Split` does for a one-character separator. -/
def splitChars (sep : Char) (cs : List Char) : List (List Char) :=
  match cs with
  | [] => [[]]
  | c :: rest =>
    if c = sep then [] :: splitChars sep rest
    else
      match splitChars sep rest with
      | [] => [[c]]
      | g :: gs => (c :: g) :: gs

/-- Model of `strings.Split(msg, " ")` (src/main.go:162): the message split
at every single space character; consecutive spaces yield empty tokens and
the empty message yields one empty token. -/
def splitSpace (s : String) : List String :=
  (splitChars ' ' s.data).map String.mk

/-- How one handled event ends: each `dropped*` constructor is one of the
silent early returns of `messageHandler`, in source order; `sent` carries
the payload passed to `ChannelMessageSendEmbed` and whether that send
itself failed (the Go code only logs such a failure). -/
inductive DispatchOutcome where
  | droppedChannel
  | droppedTokens
  | droppedCommand
  | droppedCooldown
  | droppedNotFound
  | droppedFetch (e : FetchError)
  | sent (embed : Embed) (sendFailed : Bool)
deriving DecidableEq

/-- Mirrors `sendTickerMessage` (src/main.go:186-197): build the embed, call
the send collaborator (whose failure is only logged), then stamp the
channel's last-served time. -/
def sendTickerMessage (t : tickerResponse) (st : BotState) (now : Int)
    (chan : String) (sendFailed : Bool) : BotState × DispatchOutcome :=
  ({ st with lastMessages := recordTime st.lastMessages chan now },
   .sent (makeEmbed t) sendFailed)

/-- Mirrors `messageHandler` (src/main.go:156-184) with the ambient inputs
explicit: `now` is the current time, `fetch` gives the single-asset
endpoint's response for an asset id, `sendFailed` whether the outbound send
would fail. The guards run in source order: allow-list, token count of
`strings.Split(msg, " ")`, command spelling, cooldown, snapshot lookup,
fresh fetch. -/
def messageHandler (st : BotState) (now : Int) (ev : MessageEvent)
    (fetch : String → HttpResult) (sendFailed : Bool) :
    BotState × DispatchOutcome :=
  if !(isInSlice ev.channelID channels) then (st, .droppedChannel)
  else
    match splitSpace ev.content with
    | [cmd, arg] =>
      if cmd ≠ "!c" ∧ cmd ≠ "!crypto" then (st, .droppedCommand)
      else if now - st.lastMessages ev.channelID < rateLimit then
        (st, .droppedCooldown)
      else
        match findTicker st.tickers arg with
        | none => (st, .droppedNotFound)
        | some tk =>
          match getTicker (fetch tk.id) with
          | .error e => (st, .droppedFetch e)
          | .ok fresh => sendTickerMessage fresh st now ev.channelID sendFailed
    | _ => (st, .droppedTokens)

/-- Split a character list at every whitespace character. -/
def splitAtWS (cs : List Char) : List (List Char) :=
  match cs with
  | [] => [[]]
  | c :: rest =>
    if c.isWhitespace then [] :: splitAtWS rest
    else
      match splitAtWS rest with
      | [] => [[c]]
      | g :: gs => (c :: g) :: gs

/-- Modelled from the spec: the "whitespace-separated tokens" of a message
(the non-empty runs between whitespace, as `strings.Fields` produces),
stated for comparison against the source's `strings.Split(msg, " ")`. -/
def wsFields (s : String) : List String :=
  ((splitAtWS s.data).filter (fun g => g ≠ [])).map String.mk

/-- The allow-listed channel used in concrete instances. -/
def chan1 : String := "322882023825997845"

/-- Demo state: one-asset snapshot, every channel last served at time 0. -/
def demoSt : BotState :=
  { tickers := [bitcoinA], lastMessages := fun _ => 0 }

/-- Demo single-asset endpoint that always answers 200 with one record. -/
def goodFetch : String → HttpResult :=
  fun _ => HttpResult.ok ⟨200, some [bitcoinA]⟩

/-- Demo state as `init` leaves it at a process start at time 0. -/
def startSt : BotState :=
  { tickers := [bitcoinA], lastMessages := startLastMessages 0 }

lemma messageHandler_split (st : BotState) (now : Int) (ev : MessageEvent)
    (fetch : String → HttpResult) (sf : Bool) :
    ((messageHandler st now ev fetch sf).1 = st ∧
      ∀ e b, (messageHandler st now ev fetch sf).2 ≠ DispatchOutcome.sent e b) ∨
    (∃ fresh,
      messageHandler st now ev fetch sf =
        ({ st with lastMessages := recordTime st.lastMessages ev.channelID now },
          DispatchOutcome.sent (makeEmbed fresh) sf)) := by
  unfold messageHandler
  split
  · left; exact ⟨rfl, by simp⟩
  · split
    · split
      · left; exact ⟨rfl, by simp⟩
      · split
        · left; exact ⟨rfl, by simp⟩
        · split
          · left; exact ⟨rfl, by simp⟩
          · split
            · left; exact ⟨rfl, by simp⟩
            · right; exact ⟨_, rfl⟩
    · left; exact ⟨rfl, by simp⟩

/-- C3: the cooldown check permits dispatch iff the elapsed time since the
channel's recorded timestamp is at least 30 seconds — it blocks throughout
the open interval after the record, passes at exactly 30 seconds and ever
after — and a cooldown-blocked event leaves the handler state untouched
(the check records nothing). -/
theorem cooldown_gate_spec (T0 t : Int) :
    (cooldownAllows T0 t = true ↔ 30 * timeSecond ≤ t - T0) ∧
    (∀ d : Int, 0 < d → d < 30 * timeSecond →
      cooldownAllows T0 (T0 + d) = false) ∧
    cooldownAllows T0 (T0 + 30 * timeSecond) = true ∧
    (∀ d : Int, 30 * timeSecond ≤ d → cooldownAllows T0 (T0 + d) = true) ∧
    (∀ (st : BotState) (now : Int) (ev : MessageEvent)
        (fetch : String → HttpResult) (sf : Bool),
      (messageHandler st now ev fetch sf).2 = DispatchOutcome.droppedCooldown →
      (messageHandler st now ev fetch sf).1 = st) := by
  refine ⟨?_, ?_, ?_, ?_, ?_⟩
  · simp only [cooldownAllows, rateLimit, timeSecond, Bool.not_eq_true',
      decide_eq_false_iff_not, not_lt]
    omega
  · intro d h1 h2
    simp only [timeSecond] at h2
    have hlt : d < rateLimit := by
      simp only [rateLimit, timeSecond]; omega
    simp [cooldownAllows, hlt]
  · simp only [cooldownAllows, rateLimit, timeSecond, Bool.not_eq_true',
      decide_eq_false_iff_not, not_lt]
    omega
  · intro d h
    simp only [timeSecond] at h
    simp only [cooldownAllows, rateLimit, timeSecond, Bool.not_eq_true',
      decide_eq_false_iff_not, not_lt]
    omega
  · intro st now ev fetch sf h
    rcases messageHandler_split st now ev fetch sf with ⟨h1, _⟩ | ⟨fresh, heq⟩
    · exact h1
    · rw [heq] at h; cases h

/-- Witness for C3: with a record at time 0, the gate blocks at 10 seconds
and passes at 30 seconds. -/
theorem cooldown_gate_spec_witness :
    cooldownAllows 0 (10 * timeSecond) = false ∧
    cooldownAllows 0 (30 * timeSecond) = true := by
  have h := cooldown_gate_spec 0 (10 * timeSecond)
  refine ⟨?_, ?_⟩
  · have := h.2.1 (10 * timeSecond) (by decide) (by decide)
    simpa using this
  · have := h.2.2.2.1 (30 * timeSecond) (by decide)
    simpa using this

/-- C4: the channel timestamp is recorded exactly when resolution (snapshot
lookup then fresh fetch) succeeds — a sent outcome stamps the origin channel
with `now` and touches no other channel; every dropped outcome leaves the
state untouched; and the recorded state does not depend on whether the
outbound embed send itself fails. -/
theorem cooldown_record_on_resolution (st : BotState) (now : Int)
    (ev : MessageEvent) (fetch : String → HttpResult) (sf : Bool) :
    ((∃ e b, (messageHandler st now ev fetch sf).2 = DispatchOutcome.sent e b)
      ↔ ∃ cmd arg tk fresh,
        isInSlice ev.channelID channels = true ∧
        splitSpace ev.content = [cmd, arg] ∧
        (cmd = "!c" ∨ cmd = "!crypto") ∧
        rateLimit ≤ now - st.lastMessages ev.channelID ∧
        findTicker st.tickers arg = some tk ∧
        getTicker (fetch tk.id) = Except.ok fresh) ∧
    ((∃ e b, (messageHandler st now ev fetch sf).2 = DispatchOutcome.sent e b) →
      (messageHandler st now ev fetch sf).1.lastMessages ev.channelID = now ∧
      ∀ c, c ≠ ev.channelID →
        (messageHandler st now ev fetch sf).1.lastMessages c =
          st.lastMessages c) ∧
    ((∀ e b, (messageHandler st now ev fetch sf).2 ≠ DispatchOutcome.sent e b) →
      (messageHandler st now ev fetch sf).1 = st) ∧
    (messageHandler st now ev fetch true).1 =
      (messageHandler st now ev fetch false).1 := by
  by_cases hin : isInSlice ev.channelID channels
  · rcases hsp : splitSpace ev.content with _ | ⟨cmd, _ | ⟨arg, _ | ⟨c3, rest⟩⟩⟩
    · have heq : ∀ b, messageHandler st now ev fetch b =
          (st, DispatchOutcome.droppedTokens) := by
        intro b; simp [messageHandler, hin, hsp]
      refine ⟨⟨?_, ?_⟩, ?_, ?_, ?_⟩
      · rintro ⟨e, b, hc⟩; rw [heq sf] at hc; simp at hc
      · rintro ⟨cmd', arg', tk, fresh, _, hsp', _⟩; simp at hsp'
      · rintro ⟨e, b, hc⟩; rw [heq sf] at hc; simp at hc
      · intro _; rw [heq sf]
      · rw [heq true, heq false]
    · have heq : ∀ b, messageHandler st now ev fetch b =
          (st, DispatchOutcome.droppedTokens) := by
        intro b; simp [messageHandler, hin, hsp]
      refine ⟨⟨?_, ?_⟩, ?_, ?_, ?_⟩
      · rintro ⟨e, b, hc⟩; rw [heq sf] at hc; simp at hc
      · rintro ⟨cmd', arg', tk, fresh, _, hsp', _⟩; simp at hsp'
      · rintro ⟨e, b, hc⟩; rw [heq sf] at hc; simp at hc
      · intro _; rw [heq sf]
      · rw [heq true, heq false]
    · by_cases hcmd : cmd ≠ "!c" ∧ cmd ≠ "!crypto"
      · have heq : ∀ b, messageHandler st now ev fetch b =
            (st, DispatchOutcome.droppedCommand) := by
          intro b; simp [messageHandler, hin, hsp, hcmd]
        refine ⟨⟨?_, ?_⟩, ?_, ?_, ?_⟩
        · rintro ⟨e, b, hc⟩; rw [heq sf] at hc; simp at hc
        · rintro ⟨cmd', arg', tk, fresh, _, hsp', hor, _⟩
          simp only [List.cons.injEq, and_true] at hsp'
          obtain ⟨rfl, rfl⟩ := hsp'
          rcases hor with rfl | rfl
          · exact absurd rfl hcmd.1
          · exact absurd rfl hcmd.2
        · rintro ⟨e, b, hc⟩; rw [heq sf] at hc; simp at hc
        · intro _; rw [heq sf]
        · rw [heq true, heq false]
      · by_cases hcool : now - st.lastMessages ev.channelID < rateLimit
        · have heq : ∀ b, messageHandler st now ev fetch b =
              (st, DispatchOutcome.droppedCooldown) := by
            intro b; simp [messageHandler, hin, hsp, hcmd, hcool]
          refine ⟨⟨?_, ?_⟩, ?_, ?_, ?_⟩
          · rintro ⟨e, b, hc⟩; rw [heq sf] at hc; simp at hc
          · rintro ⟨cmd', arg', tk, fresh, _, hsp', _, hle, _⟩
            exact absurd hcool (not_lt.mpr hle)
          · rintro ⟨e, b, hc⟩; rw [heq sf] at hc; simp at hc
          · intro _; rw [heq sf]
          · rw [heq true, heq false]
        · rcases hft : findTicker st.tickers arg with _ | tk
          · have heq : ∀ b, messageHandler st now ev fetch b =
                (st, DispatchOutcome.droppedNotFound) := by
              intro b; simp [messageHandler, hin, hsp, hcmd, hcool, hft]
            refine ⟨⟨?_, ?_⟩, ?_, ?_, ?_⟩
            · rintro ⟨e, b, hc⟩; rw [heq sf] at hc; simp at hc
            · rintro ⟨cmd', arg', tk', fresh, _, hsp', _, _, hft', _⟩
              simp only [List.cons.injEq, and_true] at hsp'
              obtain ⟨rfl, rfl⟩ := hsp'
              rw [hft] at hft'
              exact Option.noConfusion hft'
            · rintro ⟨e, b, hc⟩; rw [heq sf] at hc; simp at hc
            · intro _; rw [heq sf]
            · rw [heq true, heq false]
          · rcases hgt : getTicker (fetch tk.id) with e0 | fresh0
            · have heq : ∀ b, messageHandler st now ev fetch b =
                  (st, DispatchOutcome.droppedFetch e0) := by
                intro b; simp [messageHandler, hin, hsp, hcmd, hcool, hft, hgt]
              refine ⟨⟨?_, ?_⟩, ?_, ?_, ?_⟩
              · rintro ⟨e, b, hc⟩; rw [heq sf] at hc; simp at hc
              · rintro ⟨cmd', arg', tk', fresh, _, hsp', _, _, hft', hgt'⟩
                simp only [List.cons.injEq, and_true] at hsp'
                obtain ⟨rfl, rfl⟩ := hsp'
                rw [hft] at hft'
                injection hft' with h3
                subst h3
                rw [hgt] at hgt'
                exact Except.noConfusion hgt'
              · rintro ⟨e, b, hc⟩; rw [heq sf] at hc; simp at hc
              · intro _; rw [heq sf]
              · rw [heq true, heq false]
            · have heq : ∀ b, messageHandler st now ev fetch b =
                  ({ st with lastMessages :=
                      recordTime st.lastMessages ev.channelID now },
                    DispatchOutcome.sent (makeEmbed fresh0) b) := by
                intro b
                simp [messageHandler, hin, hsp, hcmd, hcool, hft, hgt,
                  sendTickerMessage]
              refine ⟨⟨?_, ?_⟩, ?_, ?_, ?_⟩
              · intro _
                exact ⟨cmd, arg, tk, fresh0, hin, rfl, by tauto,
                  not_lt.mp hcool, hft, hgt⟩
              · intro _
                exact ⟨makeEmbed fresh0, sf, by rw [heq sf]⟩
              · intro _
                rw [heq sf]
                refine ⟨by simp [recordTime], ?_⟩
                intro c hc
                simp [recordTime, hc]
              · intro h
                exact absurd (by rw [heq sf] : (messageHandler st now ev
                  fetch sf).2 = DispatchOutcome.sent (makeEmbed fresh0) sf)
                  (h (makeEmbed fresh0) sf)
              · rw [heq true, heq false]
    · have heq : ∀ b, messageHandler st now ev fetch b =
          (st, DispatchOutcome.droppedTokens) := by
        intro b; simp [messageHandler, hin, hsp]
      refine ⟨⟨?_, ?_⟩, ?_, ?_, ?_⟩
      · rintro ⟨e, b, hc⟩; rw [heq sf] at hc; simp at hc
      · rintro ⟨cmd', arg', tk, fresh, _, hsp', _⟩; simp at hsp'
      · rintro ⟨e, b, hc⟩; rw [heq sf] at hc; simp at hc
      · intro _; rw [heq sf]
      · rw [heq true, heq false]
  · have heq : ∀ b, messageHandler st now ev fetch b =
        (st, DispatchOutcome.droppedChannel) := by
      intro b
      have hin2 : isInSlice ev.channelID channels = false := by
        simpa using hin
      simp [messageHandler, hin2]
    refine ⟨⟨?_, ?_⟩, ?_, ?_, ?_⟩
    · rintro ⟨e, b, hc⟩; rw [heq sf] at hc; simp at hc
    · rintro ⟨cmd', arg', tk, fresh, hin', _⟩
      exact absurd hin' (by simpa using hin)
    · rintro ⟨e, b, hc⟩; rw [heq sf] at hc; simp at hc
    · intro _; rw [heq sf]
    · rw [heq true, heq false]

/-- Witness for C4: a successful resolution with a failing outbound send
still stamps the channel with the event time. -/
theorem cooldown_record_on_resolution_witness :
    (messageHandler demoSt (100 * timeSecond) ⟨chan1, "!c BTC"⟩ goodFetch
      true).1.lastMessages chan1 = 100 * timeSecond := by
  have h := cooldown_record_on_resolution demoSt (100 * timeSecond)
    ⟨chan1, "!c BTC"⟩ goodFetch true
  refine (h.2.1 ?_).1
  refine h.1.mpr ?_
  exact ⟨"!c", "BTC", bitcoinA, bitcoinA, by decide, by decide, Or.inl rfl,
    by decide, by decide, rfl⟩

/-- C5 (amended): the handler applies its guards in source order — allow
list; exactly two tokens of the message split on single space characters
(not general whitespace); one of the two command spellings; cooldown;
snapshot lookup; fresh fetch — stopping at the first failing guard with the
state unchanged, and the four example events (foreign channel, "!c" alone,
"!crypto BTC extra", "!x BTC") are all dropped with no send and no
record. -/
theorem dispatch_predicate_chain (st : BotState) (now : Int)
    (ev : MessageEvent) (fetch : String → HttpResult) (sf : Bool) :
    (isInSlice ev.channelID channels = false →
      messageHandler st now ev fetch sf = (st, DispatchOutcome.droppedChannel)) ∧
    (isInSlice ev.channelID channels = true →
      (splitSpace ev.content).length ≠ 2 →
      messageHandler st now ev fetch sf = (st, DispatchOutcome.droppedTokens)) ∧
    (∀ cmd arg, isInSlice ev.channelID channels = true →
      splitSpace ev.content = [cmd, arg] →
      cmd ≠ "!c" → cmd ≠ "!crypto" →
      messageHandler st now ev fetch sf = (st, DispatchOutcome.droppedCommand)) ∧
    (∀ cmd arg, isInSlice ev.channelID channels = true →
      splitSpace ev.content = [cmd, arg] →
      (cmd = "!c" ∨ cmd = "!crypto") →
      now - st.lastMessages ev.channelID < rateLimit →
      messageHandler st now ev fetch sf = (st, DispatchOutcome.droppedCooldown)) ∧
    (∀ cmd arg, isInSlice ev.channelID channels = true →
      splitSpace ev.content = [cmd, arg] →
      (cmd = "!c" ∨ cmd = "!crypto") →
      rateLimit ≤ now - st.lastMessages ev.channelID →
      findTicker st.tickers arg = none →
      messageHandler st now ev fetch sf = (st, DispatchOutcome.droppedNotFound)) ∧
    (∀ cmd arg tk e, isInSlice ev.channelID channels = true →
      splitSpace ev.content = [cmd, arg] →
      (cmd = "!c" ∨ cmd = "!crypto") →
      rateLimit ≤ now - st.lastMessages ev.channelID →
      findTicker st.tickers arg = some tk →
      getTicker (fetch tk.id) = Except.error e →
      messageHandler st now ev fetch sf = (st, DispatchOutcome.droppedFetch e)) ∧
    (∀ cmd arg tk fresh, isInSlice ev.channelID channels = true →
      splitSpace ev.content = [cmd, arg] →
      (cmd = "!c" ∨ cmd = "!crypto") →
      rateLimit ≤ now - st.lastMessages ev.channelID →
      findTicker st.tickers arg = some tk →
      getTicker (fetch tk.id) = Except.ok fresh →
      messageHandler st now ev fetch sf =
        ({ st with lastMessages := recordTime st.lastMessages ev.channelID now },
          DispatchOutcome.sent (makeEmbed fresh) sf)) ∧
    (messageHandler st now ⟨"999", ev.content⟩ fetch sf =
      (st, DispatchOutcome.droppedChannel)) ∧
    (messageHandler st now ⟨chan1, "!c"⟩ fetch sf =
      (st, DispatchOutcome.droppedTokens)) ∧
    (messageHandler st now ⟨chan1, "!crypto BTC extra"⟩ fetch sf =
      (st, DispatchOutcome.droppedTokens)) ∧
    (messageHandler st now ⟨chan1, "!x BTC"⟩ fetch sf =
      (st, DispatchOutcome.droppedCommand)) := by
  refine ⟨?_, ?_, ?_, ?_, ?_, ?_, ?_, ?_, ?_, ?_, ?_⟩
  · intro h; simp [messageHandler, h]
  · intro hin hlen
    rcases hsp : splitSpace ev.content with _ | ⟨a, _ | ⟨b, _ | ⟨c, rest⟩⟩⟩
    · simp [messageHandler, hin, hsp]
    · simp [messageHandler, hin, hsp]
    · exact absurd (by rw [hsp]; rfl) hlen
    · simp [messageHandler, hin, hsp]
  · intro cmd arg hin hsp h1 h2
    simp [messageHandler, hin, hsp, h1, h2]
  · intro cmd arg hin hsp hor hcool
    rcases hor with rfl | rfl <;> simp [messageHandler, hin, hsp, hcool]
  · intro cmd arg hin hsp hor hcool hft
    have hnc : ¬(now - st.lastMessages ev.channelID < rateLimit) :=
      not_lt.mpr hcool
    rcases hor with rfl | rfl <;> simp [messageHandler, hin, hsp, hnc, hft]
  · intro cmd arg tk e hin hsp hor hcool hft hgt
    have hnc : ¬(now - st.lastMessages ev.channelID < rateLimit) :=
      not_lt.mpr hcool
    rcases hor with rfl | rfl <;>
      simp [messageHandler, hin, hsp, hnc, hft, hgt]
  · intro cmd arg tk fresh hin hsp hor hcool hft hgt
    have hnc : ¬(now - st.lastMessages ev.channelID < rateLimit) :=
      not_lt.mpr hcool
    rcases hor with rfl | rfl <;>
      simp [messageHandler, hin, hsp, hnc, hft, hgt, sendTickerMessage]
  · have h : isInSlice "999" channels = false := by decide
    simp [messageHandler, h]
  · have h : isInSlice chan1 channels = true := by decide
    have hsp : splitSpace "!c" = ["!c"] := by decide
    simp [messageHandler, h, hsp]
  · have h : isInSlice chan1 channels = true := by decide
    have hsp : splitSpace "!crypto BTC extra" = ["!crypto", "BTC", "extra"] :=
      by decide
    simp [messageHandler, h, hsp]
  · have h : isInSlice chan1 channels = true := by decide
    have hsp : splitSpace "!x BTC" = ["!x", "BTC"] := by decide
    simp [messageHandler, h, hsp]

/-- C5 counterexample: the message "!c  BTC" (two spaces) has exactly two
whitespace-separated tokens, a recognized command, an elapsed cooldown, a
resolvable asset and a succeeding fresh fetch — every predicate of the
claim passes — yet the handler drops it at the token guard with no send
and no record, because the source splits on every single space and sees
three tokens. -/
theorem dispatch_ws_tokens_cex :
    wsFields "!c  BTC" = ["!c", "BTC"] ∧
    splitSpace "!c  BTC" = ["!c", "", "BTC"] ∧
    isInSlice chan1 channels = true ∧
    cooldownAllows (demoSt.lastMessages chan1) (100 * timeSecond) = true ∧
    findTicker demoSt.tickers "BTC" = some bitcoinA ∧
    getTicker (goodFetch bitcoinA.id) = Except.ok bitcoinA ∧
    (messageHandler demoSt (100 * timeSecond) ⟨chan1, "!c  BTC"⟩ goodFetch
      false).2 = DispatchOutcome.droppedTokens ∧
    (messageHandler demoSt (100 * timeSecond) ⟨chan1, "!c  BTC"⟩ goodFetch
      false).1.lastMessages chan1 = demoSt.lastMessages chan1 := by
  refine ⟨by decide, by decide, by decide, by decide, by decide, rfl,
    by decide, by decide⟩

/-- Witness for C5 (amended): the unrecognized command "!x BTC" is dropped
at the spelling guard with the state unchanged. -/
theorem dispatch_predicate_chain_witness :
    messageHandler demoSt 0 ⟨chan1, "!x BTC"⟩ goodFetch false =
      (demoSt, DispatchOutcome.droppedCommand) := by
  have h := dispatch_predicate_chain demoSt 0 ⟨chan1, "!x BTC"⟩ goodFetch false
  exact h.2.2.1 "!x" "BTC" (by decide) (by decide) (by decide) (by decide)

lemma isInSlice_of_mem {c : String} (h : c ∈ channels) :
    isInSlice c channels = true := by
  simp only [channels] at h
  rcases List.mem_cons.mp h with rfl | h2
  · decide
  · rcases List.mem_cons.mp h2 with rfl | h3
    · decide
    · simp at h3

/-- C7 counterexample: `init` stamps every allow-listed channel with the
start time, so the very first eligible command after startup IS rejected
when it arrives within the cooldown window — here a well-formed "!c BTC"
arriving 10 seconds after a start at time 0 is dropped by the cooldown
gate. -/
theorem startup_first_command_limited :
    startLastMessages 0 chan1 = 0 ∧
    (0 : Int) < 10 * timeSecond ∧
    (messageHandler startSt (10 * timeSecond) ⟨chan1, "!c BTC"⟩ goodFetch
      false).2 = DispatchOutcome.droppedCooldown := by
  refine ⟨by decide, by decide, by decide⟩

/-- C7 (amended): the cooldown map is initialized at process start with the
start time for every allow-listed channel, so an eligible command is
rejected by the gate while less than 30 seconds have passed since start,
and the first command arriving 30 or more seconds after start is not
rejected. -/
theorem startup_cooldown_init (start : Int) (c : String) (hc : c ∈ channels) :
    startLastMessages start c = start ∧
    (∀ now, now - start < 30 * timeSecond →
      cooldownAllows (startLastMessages start c) now = false) ∧
    (∀ now, 30 * timeSecond ≤ now - start →
      cooldownAllows (startLastMessages start c) now = true) := by
  have hs : startLastMessages start c = start := by
    simp [startLastMessages, isInSlice_of_mem hc]
  refine ⟨hs, ?_, ?_⟩
  · intro now h
    rw [hs]
    simp only [timeSecond] at h
    have hlt : now - start < rateLimit := by
      simp only [rateLimit, timeSecond]; omega
    simp [cooldownAllows, hlt]
  · intro now h
    rw [hs]
    simp only [timeSecond] at h
    simp only [cooldownAllows, rateLimit, timeSecond, Bool.not_eq_true',
      decide_eq_false_iff_not, not_lt]
    omega

/-- Witness for C7 (amended): for the first allow-listed channel and a start
at time 0, the stamp is 0 and the gate passes at exactly 30 seconds. -/
theorem startup_cooldown_init_witness :
    startLastMessages 0 chan1 = 0 ∧
    cooldownAllows (startLastMessages 0 chan1) (30 * timeSecond) = true := by
  have h := startup_cooldown_init 0 chan1 (by decide)
  exact ⟨h.1, h.2.2 (30 * timeSecond) (by decide)⟩
